import Mathlib

/-!
Verification development for the TelcoALMPredictor alarm-timeline fault
prediction engine.  The definitions below are a shallow embedding of the
two source files:

* `detecterv5.py` — inference path: horizontal-record repair
  (`fix_horizontal_alarm`), timestamp normalization (`normalize_datetime`),
  location-key construction (`build_location_key`), timeline grouping and
  the per-label thresholded prediction loop (`predict_future_faults`).
* `trainerv3.py` — training path: its own `build_location_key` variant,
  the rule-based weak labeler (`fault_labels`), and the sliding-window
  training-example builder (`X_seq` / `y_seq`).

Modelling conventions:
* Python strings are modelled as `String` where they are treated opaquely
  and as `List Char` where character-level work happens (splitting,
  stripping, substring tests, the datetime regex).  ASCII granularity is
  used for `lower`/`strip`.
* `pandas` tables are modelled as lists: a table is a list of rows or a
  list of named columns, `groupby` is modelled by first-occurrence
  deduplication of keys plus filtering (pandas emits each distinct key
  exactly once; output ordering of groups is not used by any theorem).
* The artifacts loaded from disk at inference time (the trained model,
  the frozen encoder vocabularies, the fault metadata table) are
  parameters: `proba` is the per-label probability function realised by
  `model.predict_proba`, `classes` is `fault_encoder.classes_` (a
  duplicate-free list, as produced by `MultiLabelBinarizer`), `vocab` is
  `alarm_encoder.classes_` and `fd` is the pickled `FAULT_DATA`.
* Probabilities are rationals; Python float literals 0.5, 0.25, 0.01 are
  exact.  `round(x, 2)` is modelled as exact decimal round-half-to-even.
* Fallible steps (`raise`, a mismatched pandas column assignment) are
  modelled with `Except`.
-/

/-! ## Character-level utilities -/

/-- Whitespace characters stripped by Python `str.strip()` (ASCII range). -/
def isWS (c : Char) : Bool :=
  c = ' ' || c = '\t' || c = '\n' || c = '\r' || c = '\x0b' || c = '\x0c'

/-- Python `str.strip()`: drop whitespace from both ends. -/
def stripChars (l : List Char) : List Char :=
  ((l.dropWhile isWS).reverse.dropWhile isWS).reverse

/-- Python `str.split(",")`. -/
def splitComma : List Char → List (List Char)
  | [] => [[]]
  | c :: rest =>
    if c = ',' then [] :: splitComma rest
    else
      match splitComma rest with
      | [] => [[c]]
      | h :: t => (c :: h) :: t

/-- Python `str.lower()` (ASCII granularity). -/
def toLowerL (l : List Char) : List Char := l.map Char.toLower

/-- Does `hay` start with `needle`? -/
def matchesAt : List Char → List Char → Bool
  | [], _ => true
  | _ :: _, [] => false
  | a :: as, b :: bs => a = b && matchesAt as bs

/-- Python substring test `needle in hay`. -/
def containsSub (needle : List Char) : List Char → Bool
  | [] => needle.isEmpty
  | b :: bs => matchesAt needle (b :: bs) || containsSub needle bs

/-! ## Location keys (detecterv5.build_location_key, trainerv3.build_location_key) -/

def cabinetTok : List Char := "cabinet".data

def subrackTok : List Char := "subrack".data

def slotTok : List Char := "slot".data

/-- Sentinel for an unmatched component (`"?"` in both sources). -/
def unknownTok : List Char := "?".data

/-- The (cabinet, subrack, slot) accumulator of both location-key loops. -/
structure LocTriple where
  cabinet : List Char
  subrack : List Char
  slot : List Char
deriving DecidableEq, Repr

def initTriple : LocTriple := ⟨unknownTok, unknownTok, unknownTok⟩

/-- One loop iteration of `detecterv5.build_location_key`: the segment is
stripped first, then tested with `if`/`elif` against the three substrings. -/
def updateDet (acc : LocTriple) (partRaw : List Char) : LocTriple :=
  let part := stripChars partRaw
  if containsSub cabinetTok part then { acc with cabinet := part }
  else if containsSub subrackTok part then { acc with subrack := part }
  else if containsSub slotTok part then { acc with slot := part }
  else acc

/-- Component extraction of `detecterv5.build_location_key`: lower-case,
split on commas, fold the `if`/`elif` update over the segments. -/
def locTriple_det (text : List Char) : LocTriple :=
  (splitComma (toLowerL text)).foldl updateDet initTriple

/-- Key of detecterv5.build_location_key: joins the triple with newlines. -/
def build_location_key (text : List Char) : List Char :=
  let t := locTriple_det text
  t.cabinet ++ '\n' :: (t.subrack ++ '\n' :: t.slot)

/-- One loop iteration of `trainerv3.build_location_key`: the substring test
runs on the raw segment, stripping happens only on assignment. -/
def updateTrn (acc : LocTriple) (p : List Char) : LocTriple :=
  if containsSub cabinetTok p then { acc with cabinet := stripChars p }
  else if containsSub subrackTok p then { acc with subrack := stripChars p }
  else if containsSub slotTok p then { acc with slot := stripChars p }
  else acc

/-- Component extraction of `trainerv3.build_location_key`. -/
def locTriple_trn (text : List Char) : LocTriple :=
  (splitComma (toLowerL text)).foldl updateTrn initTriple

/-- Key of trainerv3.build_location_key: joins the triple with `|`. -/
def build_location_key_trn (text : List Char) : List Char :=
  let t := locTriple_trn text
  t.cabinet ++ '|' :: (t.subrack ++ '|' :: t.slot)

/-- Definition following the words of the claim (not the source), for the
refinement comparison of claim C6: keep for each component the FIRST
comma-separated segment (trimmed) containing its substring. -/
def build_location_key_claimed (text : List Char) : List Char :=
  let parts := (splitComma (toLowerL text)).map stripChars
  let cab := (parts.find? (containsSub cabinetTok)).getD unknownTok
  let sub := (parts.find? (containsSub subrackTok)).getD unknownTok
  let slt := (parts.find? (containsSub slotTok)).getD unknownTok
  cab ++ '\n' :: (sub ++ '\n' :: slt)

/-! ## Horizontal-record repair (detecterv5.fix_horizontal_alarm) -/

def isDigitC (c : Char) : Bool := '0' ≤ c && c ≤ '9'

/-- Full match of the pattern `\d{4}-\d{2}-\d{2}[ _]\d{2}:\d{2}:\d{2}`
(`DATETIME_REGEX` with `re.fullmatch`). -/
def matchesDatetimeL : List Char → Bool
  | [y1, y2, y3, y4, d1, mo1, mo2, d2, a1, a2, sp, h1, h2, c1, mi1, mi2, c2, s1, s2] =>
    isDigitC y1 && isDigitC y2 && isDigitC y3 && isDigitC y4 && d1 = '-' &&
    isDigitC mo1 && isDigitC mo2 && d2 = '-' && isDigitC a1 && isDigitC a2 &&
    (sp = ' ' || sp = '_') && isDigitC h1 && isDigitC h2 && c1 = ':' &&
    isDigitC mi1 && isDigitC mi2 && c2 = ':' && isDigitC s1 && isDigitC s2
  | _ => false

/-- A raw tabular input: header names plus data rows of cell strings. -/
structure AlarmFrame where
  headers : List String
  rows : List (List String)
deriving DecidableEq, Repr

/-- The canonical column list assigned by `fix_horizontal_alarm`. -/
def CANON_COLUMNS : List String :=
  ["severity", "name", "ne_name", "device", "manage_domain",
   "device_type", "location_info", "raised_on", "cleared_on"]

/-- Model of detecterv5.fix_horizontal_alarm: when any header fully matches the
datetime pattern, the header row becomes the sole data row and the columns
are renamed to `CANON_COLUMNS[:len(values)]`.  The pandas assignment
`df.columns = ...` raises when the name list is shorter than the column
count (i.e. when there are more than nine header values); that failure is
the `Except.error` branch. -/
def fix_horizontal_alarm (df : AlarmFrame) : Except String AlarmFrame :=
  if df.headers.any (fun c => matchesDatetimeL c.data) then
    if df.headers.length ≤ CANON_COLUMNS.length then
      .ok ⟨CANON_COLUMNS.take df.headers.length, [df.headers]⟩
    else .error "Length mismatch: cannot assign columns"
  else .ok df

/-! ## Timestamp normalization (detecterv5.normalize_datetime) -/

def datetime_candidates : List String :=
  ["raised_on", "last_occurred", "occurred", "event_time", "alarm_time", "time"]

/-- Python `.str.replace("_", " ")` (the pattern is a single character,
so substring replacement coincides with a character map). -/
def replaceUnderscores (s : String) : String :=
  ⟨s.data.map (fun c => if c = '_' then ' ' else c)⟩

/-- Model of detecterv5.normalize_datetime over a table given as named columns of
cell strings.  `parse` models `pd.to_datetime(..., errors="coerce")`
(`none` is `NaT`).  The function scans `df.columns` in TABLE order and uses
the first column whose name is a candidate, assigning the parsed series to
`raised_on`; it raises when no column name is a candidate.  The result is
(source column name, parsed series assigned to `raised_on`). -/
def normalize_datetime (parse : String → Option Int)
    (cols : List (String × List String)) : Except String (String × List (Option Int)) :=
  match cols.find? (fun c => decide (c.1 ∈ datetime_candidates)) with
  | some (nm, vals) => .ok (nm, vals.map (fun v => parse (replaceUnderscores v)))
  | none => .error "No datetime column found"

/-- Definition following the words of the claim (not the source), for the
refinement comparison of claim C5: pick the timestamp column by walking the
CANDIDATE list in priority order. -/
def chooseDatetimeColSpec (cols : List (String × List String)) : Option String :=
  datetime_candidates.find? (fun cand => cols.any (fun c => decide (c.1 = cand)))

/-! ## Weak labeler (trainerv3, `fault_labels` loop) -/

/-- The fixed, ordered trigger-rule table of trainerv3 (the commented-out
`ne_disconnected` rule is absent, as in the source). -/
def RULES : List (List String × String) := [
  (["rf_unit_dc_input_power_failure", "rf_unit_runtime_topology_error", "cell_unavailable",
    "rf_unit_maintenance_link_failure", "remote_maintenance_link_failure"],
   "gsm_local_cell_unusable"),
  (["bbu_cpri_interface_error"], "bbu_cpri_interface_error"),
  (["rf_unit_tx_channel_gain_out_of_range"], "rf_unit_tx_channel_gain_out_of_range"),
  (["tbc_battery_cabinet_high_temperature"], "tbc_battery_cabinet_high_temperature"),
  (["cell_capability_degraded"], "cell_capability_degraded"),
  (["configured_capacity_limit_exceeding_licensed_limit",
    "data_configuration_exceeding_licensed_limit"], "capacity_license_issue"),
  (["rf_unit_clock_problem"], "rf_unit_clock_problem"),
  (["ac_surge_protector_fault"], "ac_surge_protection_fault"),
  (["rf_unit_vswr_threshold_crossed"], "qos"),
  (["mains_input_out_of_range", "mains_failure", "ac_failure", "phase_l1_under_voltage",
    "phase_l2_under_voltage", "phase_l3_under_voltage"], "battery_discharging"),
  (["fan_1_fault", "fan_2_fault", "fan_3_fault", "fan_4_fault"], "indoor_vent_high_temperature"),
  (["power_module_and_monitoring_module_communication_failure"], "power_monitoring_failure"),
  (["lithium_battery_protection", "overdischarge"], "battery_health_issue")]

/-- Python `trigger_set & set(alarms)` being non-empty. -/
def ruleFires (alarms : List String) (trig : List String) : Bool :=
  trig.any (fun t => decide (t ∈ alarms))

/-- The rule loop: each firing rule appends its target label. -/
def applyRules (alarms : List String) : List (List String × String) → List String → List String
  | [], acc => acc
  | (trig, lbl) :: rest, acc =>
    applyRules alarms rest (if ruleFires alarms trig then acc ++ [lbl] else acc)

/-- Labels of the rules that fire, in rule order (specification device used
to characterize `applyRules`). -/
def firedLabels (alarms : List String) (rules : List (List String × String)) : List String :=
  rules.filterMap (fun r => if ruleFires alarms r.1 then some r.2 else none)

/-- The weak labeler for the alarm list of one window (trainerv3 lines 205-276):
apply every rule; if none fired the label set is exactly `["no_fault"]`. -/
def fault_labels_for (alarms : List String) : List String :=
  let faults := applyRules alarms RULES []
  if faults = [] then ["no_fault"] else faults

/-! ## History encoder (MultiLabelBinarizer.transform over the frozen vocabulary) -/

/-- Multi-hot encoding of a token list over the frozen training vocabulary:
one indicator per vocabulary entry; tokens outside the vocabulary are
invisible (sklearn `MultiLabelBinarizer.transform` ignores unknown classes). -/
def encode (vocab tokens : List String) : List Nat :=
  vocab.map (fun t => if t ∈ tokens then 1 else 0)

/-! ## Timeline building and prediction (detecterv5.predict_future_faults) -/

/-- One normalized alarm row as it stands after the cleaning steps of
`predict_future_faults` (lines 98-109): device name, built location key,
floored time window and cleaned alarm token. -/
structure Row where
  ne_name : String
  location_key : String
  time_window : Int
  alarm_clean : String
deriving DecidableEq, Repr

def HISTORY_WINDOWS : Nat := 3

def MIN_RISK : ℚ := 1 / 100

def rowKey (r : Row) : String × String := (r.ne_name, r.location_key)

/-- The distinct (ne_name, location_key) pairs of the table — the keys of
the `timeline` dict built from `groupby`. -/
def pairKeys (rows : List Row) : List (String × String) :=
  ((rows.map rowKey).dedup)

/-- The distinct time windows observed for one (device, location) pair. -/
def winsFor (rows : List Row) (k : String × String) : List Int :=
  ((rows.filter (fun r => decide (rowKey r = k))).map Row.time_window).dedup

/-- The list `g["alarm_clean"].tolist()` for the group of `k` at window `w`. -/
def alarmsIn (rows : List Row) (k : String × String) (w : Int) : List String :=
  (rows.filter (fun r => decide (rowKey r = k) && decide (r.time_window = w))).map Row.alarm_clean

/-- The entry `timeline[(ne, loc)]`: the (window, alarms) records of one pair. -/
def recordsFor (rows : List Row) (k : String × String) : List (Int × List String) :=
  (winsFor rows k).map (fun w => (w, alarmsIn rows k w))

/-- Comparison used by `records.sort(key=lambda x: x[0])`. -/
def recLe (a b : Int × List String) : Bool := decide (a.1 ≤ b.1)

/-- The flattened alarm lists of the last `HISTORY_WINDOWS` sorted records
(`recent` in the source). -/
def recentOf (records : List (Int × List String)) : List String :=
  let s := records.mergeSort recLe
  ((s.drop (s.length - HISTORY_WINDOWS)).map Prod.snd).flatten

/-- Metadata record of `FAULT_DATA`. -/
structure FaultMeta where
  cause : String
  recommendation : String
  team : String
deriving DecidableEq, Repr

/-- Fallback used by `FAULT_DATA.get(fault, {...})`. -/
def defaultMeta : FaultMeta := ⟨"Unknown", "N/A", "N/A"⟩

/-- One element of the `results` list of `predict_future_faults`. -/
structure PredictionResult where
  site : String
  location : String
  fault : String
  probabilityPct : ℚ
  riskLevel : String
  cause : String
  recommendation : String
  team : String
deriving DecidableEq, Repr

/-- Exact decimal round-half-to-even (Python `round` on the modelled exact
values). -/
def roundHalfEven (x : ℚ) : ℤ :=
  let f : ℤ := ⌊x⌋
  if x - f < 1 / 2 then f
  else if (1 : ℚ) / 2 < x - f then f + 1
  else if f % 2 = 0 then f else f + 1

/-- Python `round(x, 2)`. -/
def round2 (x : ℚ) : ℚ := (roundHalfEven (x * 100) : ℚ) / 100

/-- Risk tiering, line 142 of detecterv5. -/
def riskLevelOf (p : ℚ) : String :=
  if 1 / 2 ≤ p then "HIGH" else if 1 / 4 ≤ p then "MEDIUM" else "LOW"

/-- The record appended by `results.append({...})` (lines 143-152) for one
pair and one label, with the metadata default of line 141. -/
def resultFor (proba : List Nat → String → ℚ) (vocab : List String)
    (fd : List (String × FaultMeta)) (k : String × String) (recent : List String)
    (fault : String) : PredictionResult :=
  let p := proba (encode vocab recent) fault
  let meta := (fd.lookup fault).getD defaultMeta
  { site := k.1, location := k.2, fault := fault,
    probabilityPct := round2 (p * 100), riskLevel := riskLevelOf p,
    cause := meta.cause, recommendation := meta.recommendation, team := meta.team }

/-- The inner label loop (lines 134-152): skip `no_fault`, skip labels
below `MIN_RISK`, build the record. -/
def emitForPair (proba : List Nat → String → ℚ) (classes vocab : List String)
    (fd : List (String × FaultMeta)) (k : String × String) (recent : List String) :
    List PredictionResult :=
  classes.filterMap (fun fault =>
    if fault = "no_fault" then none
    else if proba (encode vocab recent) fault < MIN_RISK then none
    else some (resultFor proba vocab fd k recent fault))

/-- The body of the per-pair loop (lines 117-152): sort records by window,
skip pairs with fewer than `HISTORY_WINDOWS` records, flatten the last
`HISTORY_WINDOWS` windows into `recent`, skip when empty, emit per label. -/
def predictForPair (proba : List Nat → String → ℚ) (classes vocab : List String)
    (fd : List (String × FaultMeta)) (k : String × String)
    (records : List (Int × List String)) : List PredictionResult :=
  let s := records.mergeSort recLe
  if s.length < HISTORY_WINDOWS then []
  else
    let recent := ((s.drop (s.length - HISTORY_WINDOWS)).map Prod.snd).flatten
    if recent.isEmpty then []
    else emitForPair proba classes vocab fd k recent

/-- Model of detecterv5.predict_future_faults from the normalized rows onward
(lines 112-154): group into the timeline and run the per-pair loop.  The
loaded artifacts (`model.predict_proba` as `proba`,
`fault_encoder.classes_` as `classes`, `alarm_encoder.classes_` as
`vocab`, `FAULT_DATA` as `fd`) are parameters. -/
def predict_future_faults (proba : List Nat → String → ℚ) (classes vocab : List String)
    (fd : List (String × FaultMeta)) (rows : List Row) : List PredictionResult :=
  ((pairKeys rows).map
    (fun k => predictForPair proba classes vocab fd k (recordsFor rows k))).flatten

/-! ## Training-example builder (trainerv3 lines 282-299) -/

/-- The entry `timeline[(ne, loc)]` of the trainer: (window, alarms, weak labels). -/
def trainRecordsFor (rows : List Row) (k : String × String) :
    List (Int × List String × List String) :=
  (winsFor rows k).map (fun w => (w, alarmsIn rows k w, fault_labels_for (alarmsIn rows k w)))

/-- Comparison used by the trainer call `records.sort(key=lambda x: x[0])`. -/
def trainRecLe (a b : Int × List String × List String) : Bool := decide (a.1 ≤ b.1)

/-- The sliding-window loop `for i in range(HISTORY_WINDOWS, len(records))`:
each interior window pairs the flattened alarms of the `HISTORY_WINDOWS`
preceding records with its own weak labels. -/
def trainExamplesFor (records : List (Int × List String × List String)) :
    List (List String × List String) :=
  let s := records.mergeSort trainRecLe
  (List.range' HISTORY_WINDOWS (s.length - HISTORY_WINDOWS)).map (fun i =>
    ((((s.drop (i - HISTORY_WINDOWS)).take HISTORY_WINDOWS).map (fun t => t.2.1)).flatten,
     (s.getD i (0, [], [])).2.2))

/-- The pairs `X_seq`/`y_seq` over all device-location pairs. -/
def training_examples (rows : List Row) : List (List String × List String) :=
  ((pairKeys rows).map (fun k => trainExamplesFor (trainRecordsFor rows k))).flatten

/-! ## Static fault knowledge base (trainerv3 FAULT_DATA, pickled for inference) -/

def FAULT_DATA : List (String × FaultMeta) := [
  ("gsm_local_cell_unusable",
   ⟨"TRX failure, RF link down, power issue",
    "Verify RF unit status, reset TRX, check DC input and feeders", "Field"⟩),
  ("bbu_cpri_interface_error",
   ⟨"Fiber link loss, dirty connector, CPRI port failure",
    "Clean fiber connectors, check SFP power, replace fiber or CPRI port", "Field + NOC"⟩),
  ("rf_unit_tx_channel_gain_out_of_range",
   ⟨"PA degradation, temperature impact, calibration error",
    "Check RF unit temperature, recalibrate RF path, replace RFU if persistent", "Field"⟩),
  ("tbc_battery_cabinet_high_temperature",
   ⟨"Poor ventilation or fan failure",
    "Improve ventilation, check fans, reduce load if needed", "Field"⟩),
  ("cell_capability_degraded",
   ⟨"License limit exceeded or RF degradation",
    "Verify capacity license and RF configuration", "NOC"⟩),
  ("capacity_license_issue",
   ⟨"Configured or data capacity exceeding licensed limit",
    "Verify license and apply capacity upgrade", "NOC"⟩),
  ("rf_unit_clock_problem",
   ⟨"GNSS sync loss or clock module fault",
    "Check GNSS lock, inspect clock cable, switch to backup sync", "NOC"⟩),
  ("ac_surge_protection_fault",
   ⟨"Surge event or SPD degradation",
    "Replace surge protector and inspect grounding", "Field"⟩),
  ("qos",
   ⟨"High VSWR due to feeder or antenna fault",
    "Inspect feeders, tighten connectors, test antenna VSWR", "Field"⟩),
  ("battery_discharging",
   ⟨"AC failure, rectifier fault, power fluctuation",
    "Check AC input, rectifiers, breakers, and battery health", "Field"⟩),
  ("indoor_vent_high_temperature",
   ⟨"Fan fault or blocked ventilation",
    "Replace faulty fans and clear airflow paths", "Field"⟩),
  ("power_monitoring_failure",
   ⟨"Power module and monitoring module communication failure",
    "Check power monitoring module connections and reboot module", "Field"⟩),
  ("battery_health_issue",
   ⟨"Battery protection triggered or over-discharge",
    "Perform battery health check and replace battery if required", "Field"⟩),
  ("no_fault",
   ⟨"No abnormal condition detected", "Continue monitoring", "NOC"⟩)]

/-! ## Helper lemmas: weak labeler -/

lemma ruleFires_iff {alarms trig : List String} :
    ruleFires alarms trig = true ↔ ∃ t ∈ trig, t ∈ alarms := by
  simp [ruleFires, List.any_eq_true]

lemma applyRules_eq (alarms : List String) (rules : List (List String × String)) :
    ∀ acc, applyRules alarms rules acc = acc ++ firedLabels alarms rules := by
  induction rules with
  | nil => intro acc; simp [applyRules, firedLabels]
  | cons hd tl ih =>
    intro acc
    obtain ⟨trig, lbl⟩ := hd
    by_cases h : ruleFires alarms trig = true
    · simp only [applyRules, firedLabels, List.filterMap_cons, h, if_pos, ih]
      simp [firedLabels]
    · simp only [applyRules, firedLabels, List.filterMap_cons, h, if_neg, ih]
      simp [firedLabels, h]

lemma mem_firedLabels {alarms : List String} {x : String}
    {rules : List (List String × String)} :
    x ∈ firedLabels alarms rules ↔
      ∃ r ∈ rules, ruleFires alarms r.1 = true ∧ r.2 = x := by
  simp only [firedLabels, List.mem_filterMap]
  constructor
  · rintro ⟨r, hr, h⟩
    by_cases hf : ruleFires alarms r.1 = true
    · rw [if_pos hf] at h
      exact ⟨r, hr, hf, Option.some_injective _ h⟩
    · rw [if_neg hf] at h
      exact absurd h (Option.noConfusion)
  · rintro ⟨r, hr, hf, hx⟩
    exact ⟨r, hr, by rw [if_pos hf, hx]⟩

lemma firedLabels_eq_nil {alarms : List String} {rules : List (List String × String)} :
    firedLabels alarms rules = [] ↔ ∀ r ∈ rules, ruleFires alarms r.1 = false := by
  constructor
  · intro h r hr
    by_contra hne
    have hf : ruleFires alarms r.1 = true := by
      cases hfr : ruleFires alarms r.1 with
      | true => rfl
      | false => exact absurd hfr hne
    have : r.2 ∈ firedLabels alarms rules := mem_firedLabels.2 ⟨r, hr, hf, rfl⟩
    rw [h] at this
    exact List.not_mem_nil _ this
  · intro h
    cases hfl : firedLabels alarms rules with
    | nil => rfl
    | cons a t =>
      have : a ∈ firedLabels alarms rules := by rw [hfl]; exact List.mem_cons_self a t
      obtain ⟨r, hr, hf, _⟩ := mem_firedLabels.1 this
      rw [h r hr] at hf
      exact absurd hf (by simp)

lemma no_fault_not_target : "no_fault" ∉ RULES.map Prod.snd := by decide

lemma RULES_targets_nodup : (RULES.map Prod.snd).Nodup := by decide

lemma fault_labels_for_eq (alarms : List String) :
    fault_labels_for alarms =
      if firedLabels alarms RULES = [] then ["no_fault"] else firedLabels alarms RULES := by
  simp [fault_labels_for, applyRules_eq]

/-! ## Helper lemmas: encoder -/

lemma encode_ext {vocab xs ys : List String} (h : ∀ t, t ∈ xs ↔ t ∈ ys) :
    encode vocab xs = encode vocab ys := by
  unfold encode
  exact List.map_congr_left (fun v _ => if_congr (h v) rfl rfl)

/-! ## Claim theorems: C8, C3, C4, C7 -/

/-- C8: the LocationKey built from "Cabinet 1, Subrack 2, Slot 3" equals the
one built from "slot 3, cabinet 1, subrack 2" (extraction by component
matching, not position), both differ from the key of "Cabinet 1, Subrack 2",
and the slot component of the latter is the unknown sentinel. -/
theorem C8_location_key_roundtrip :
    build_location_key "Cabinet 1, Subrack 2, Slot 3".data =
      build_location_key "slot 3, cabinet 1, subrack 2".data
    ∧ build_location_key "Cabinet 1, Subrack 2, Slot 3".data ≠
      build_location_key "Cabinet 1, Subrack 2".data
    ∧ (locTriple_det "Cabinet 1, Subrack 2".data).slot = unknownTok :=
  ⟨by decide, by decide, by decide⟩

/-- C3: the history encoding depends only on the set of tokens: lists with
the same membership encode identically (covering permutation and
duplication), a token outside the frozen vocabulary leaves the vector
unchanged, and only the union of the windows matters (which sub-window a
token came from is invisible). -/
theorem C3_encoding_set_function :
    (∀ vocab xs ys : List String, (∀ t, t ∈ xs ↔ t ∈ ys) →
      encode vocab xs = encode vocab ys)
    ∧ (∀ (vocab xs : List String) (t : String), t ∉ vocab →
      encode vocab (t :: xs) = encode vocab xs)
    ∧ (∀ (vocab : List String) (ws ws' : List (List String)),
      (∀ t, t ∈ ws.flatten ↔ t ∈ ws'.flatten) →
      encode vocab ws.flatten = encode vocab ws'.flatten) := by
  refine ⟨fun _ _ _ h => encode_ext h, ?_, fun _ _ _ h => encode_ext h⟩
  intro vocab xs t ht
  unfold encode
  apply List.map_congr_left
  intro v hv
  have hvt : v ≠ t := fun he => ht (he ▸ hv)
  simp [List.mem_cons, hvt]

/-- Closed witness for C3 at concrete inputs: duplication does not change
the vector, and an out-of-vocabulary token is dropped. -/
theorem C3_encoding_set_function_witness :
    encode ["a", "b"] ["a", "a"] = encode ["a", "b"] ["a"]
    ∧ encode ["a", "b"] ("c" :: ["a"]) = encode ["a", "b"] ["a"] :=
  ⟨C3_encoding_set_function.1 ["a", "b"] ["a", "a"] ["a"] (fun t => by simp),
   C3_encoding_set_function.2.1 ["a", "b"] ["a"] "c" (by decide)⟩

/-- C4: the target label of a rule is in the weak-label list of a window
exactly when the alarms of the window intersect the trigger set; the label list
is exactly ["no_fault"] exactly when no rule fires; and a window can
receive several labels from different rules. -/
theorem C4_weak_labeler :
    (∀ (alarms trig : List String) (lbl : String), (trig, lbl) ∈ RULES →
      (lbl ∈ fault_labels_for alarms ↔ ∃ t ∈ trig, t ∈ alarms))
    ∧ (∀ alarms : List String,
      (fault_labels_for alarms = ["no_fault"] ↔ ∀ r ∈ RULES, ¬∃ t ∈ r.1, t ∈ alarms))
    ∧ fault_labels_for ["bbu_cpri_interface_error", "rf_unit_clock_problem"] =
      ["bbu_cpri_interface_error", "rf_unit_clock_problem"] := by
  refine ⟨?_, ?_, by decide⟩
  · intro alarms trig lbl hmem
    rw [← ruleFires_iff, fault_labels_for_eq]
    by_cases hnil : firedLabels alarms RULES = []
    · rw [if_pos hnil]
      have hne : lbl ≠ "no_fault" := by
        intro he
        exact no_fault_not_target (he ▸ List.mem_map_of_mem Prod.snd hmem)
      constructor
      · intro hl
        rw [List.mem_singleton] at hl
        exact absurd hl hne
      · intro hf
        exfalso
        have : lbl ∈ firedLabels alarms RULES := mem_firedLabels.2 ⟨(trig, lbl), hmem, hf, rfl⟩
        rw [hnil] at this
        exact List.not_mem_nil _ this
    · rw [if_neg hnil]
      constructor
      · intro hl
        obtain ⟨r, hr, hfire, heq⟩ := mem_firedLabels.1 hl
        have hr2 : r = (trig, lbl) :=
          List.inj_on_of_nodup_map RULES_targets_nodup hr hmem heq
        rw [hr2] at hfire
        exact hfire
      · intro hf
        exact mem_firedLabels.2 ⟨(trig, lbl), hmem, hf, rfl⟩
  · intro alarms
    rw [fault_labels_for_eq]
    by_cases hnil : firedLabels alarms RULES = []
    · rw [if_pos hnil]
      simp only [iff_true_intro rfl, true_iff]
      intro r hr he
      have hf : ruleFires alarms r.1 = true := ruleFires_iff.2 he
      rw [firedLabels_eq_nil.1 hnil r hr] at hf
      exact absurd hf (by simp)
    · rw [if_neg hnil]
      constructor
      · intro he
        exfalso
        have : "no_fault" ∈ firedLabels alarms RULES := by
          rw [he]; exact List.mem_singleton.2 rfl
        obtain ⟨r, hr, _, hx⟩ := mem_firedLabels.1 this
        exact no_fault_not_target (hx ▸ List.mem_map_of_mem Prod.snd hr)
      · intro hall
        exfalso
        apply hnil
        apply firedLabels_eq_nil.2
        intro r hr
        cases hfr : ruleFires alarms r.1 with
        | false => rfl
        | true => exact absurd (ruleFires_iff.1 hfr) (hall r hr)

/-- Closed witness for C4 at a concrete rule and window: the qos rule fires
on its trigger token, and a window with no triggering alarm gets exactly
["no_fault"]. -/
theorem C4_weak_labeler_witness :
    ((["rf_unit_vswr_threshold_crossed"], "qos") ∈ RULES)
    ∧ ("qos" ∈ fault_labels_for ["rf_unit_vswr_threshold_crossed"] ↔
        ∃ t ∈ ["rf_unit_vswr_threshold_crossed"], t ∈ ["rf_unit_vswr_threshold_crossed"])
    ∧ (fault_labels_for ["hello"] = ["no_fault"] ↔ ∀ r ∈ RULES, ¬∃ t ∈ r.1, t ∈ ["hello"]) :=
  ⟨by decide,
   C4_weak_labeler.1 ["rf_unit_vswr_threshold_crossed"] ["rf_unit_vswr_threshold_crossed"] "qos"
     (by decide),
   C4_weak_labeler.2.1 ["hello"]⟩

/-- C7: when any header string fully matches the strict datetime pattern
(and there are at most as many header values as canonical names, so the
pandas column assignment succeeds), the header row becomes the sole data
row and the columns are the canonical list truncated to the value count. -/
theorem C7_horizontal_header_row (df : AlarmFrame)
    (h1 : ∃ c ∈ df.headers, matchesDatetimeL c.data = true)
    (h2 : df.headers.length ≤ CANON_COLUMNS.length) :
    fix_horizontal_alarm df =
      .ok ⟨CANON_COLUMNS.take df.headers.length, [df.headers]⟩ := by
  unfold fix_horizontal_alarm
  rw [if_pos (List.any_eq_true.2 h1), if_pos h2]

/-- Closed witness for C7: a frame whose headers are a data row shaped like
"2024-01-01 10:00:00, CRITICAL" is reinterpreted. -/
theorem C7_horizontal_header_row_witness :
    fix_horizontal_alarm ⟨["2024-01-01 10:00:00", "CRITICAL"], []⟩ =
      .ok ⟨["severity", "name"], [["2024-01-01 10:00:00", "CRITICAL"]]⟩ :=
  C7_horizontal_header_row ⟨["2024-01-01 10:00:00", "CRITICAL"], []⟩ (by decide) (by decide)

/-! ## Helper lemmas: normalize_datetime -/

lemma find?_eq_get_first {α : Type} (p : α → Bool) (l : List α) :
    ∀ (i : Nat) (hi : i < l.length), p (l.get ⟨i, hi⟩) = true →
      (∀ j (hj : j < i), p (l.get ⟨j, hj.trans hi⟩) = false) →
      l.find? p = some (l.get ⟨i, hi⟩) := by
  induction l with
  | nil => intro i hi; exact absurd hi (Nat.not_lt_zero i)
  | cons a t ih =>
    intro i hi hp hmin
    cases i with
    | zero =>
      exact List.find?_cons_of_pos _ hp
    | succ n =>
      have ha : p a = false := hmin 0 (Nat.succ_pos n)
      have hrec : List.find? p t = some (t.get ⟨n, Nat.lt_of_succ_lt_succ hi⟩) :=
        ih n (Nat.lt_of_succ_lt_succ hi) hp
          (fun j hj => hmin (j + 1) (Nat.succ_lt_succ hj))
      rw [List.find?_cons_of_neg _ (by simp [ha])]
      exact hrec

/-! ## Claim theorems: C5 -/

/-- Counterexample to C5 as stated: the source iterates over the columns
OF THE TABLE and takes the first table column whose name is any candidate, not
the candidate list in priority order.  On a table with columns
[time, raised_on] the code uses "time", while the candidate-priority order
would choose "raised_on". -/
theorem C5_counterexample :
    normalize_datetime (fun _ => none) [("time", []), ("raised_on", [])] =
      .ok ("time", [])
    ∧ chooseDatetimeColSpec [("time", []), ("raised_on", [])] = some "raised_on"
    ∧ ("time" : String) ≠ "raised_on" :=
  ⟨rfl, rfl, by decide⟩

/-- C5 amended: the timestamp column used is the first column in the
column order of the TABLE itself whose name is among the candidates
(raised_on, last_occurred, occurred, event_time, alarm_time, time); its
values are parsed with underscores first replaced by spaces; and
normalization fails exactly when no column name is a candidate. -/
theorem C5_amended_first_table_column (parse : String → Option Int)
    (cols : List (String × List String)) :
    ((∃ e, normalize_datetime parse cols = .error e) ↔
      ∀ c ∈ cols, c.1 ∉ datetime_candidates)
    ∧ (∀ (i : Nat) (hi : i < cols.length), (cols.get ⟨i, hi⟩).1 ∈ datetime_candidates →
      (∀ j (hj : j < i), (cols.get ⟨j, hj.trans hi⟩).1 ∉ datetime_candidates) →
      normalize_datetime parse cols =
        .ok ((cols.get ⟨i, hi⟩).1,
          (cols.get ⟨i, hi⟩).2.map (fun v => parse (replaceUnderscores v)))) := by
  constructor
  · unfold normalize_datetime
    cases hf : cols.find? (fun c => decide (c.1 ∈ datetime_candidates)) with
    | some c =>
      obtain ⟨nm, vals⟩ := c
      simp only []
      constructor
      · rintro ⟨e, he⟩
        exact absurd he (by simp)
      · intro hall
        exfalso
        have hmem := List.mem_of_find?_eq_some hf
        have hp := List.find?_some hf
        rw [decide_eq_true_eq] at hp
        exact hall _ hmem hp
    | none =>
      simp only []
      constructor
      · intro _
        intro c hc
        have := List.find?_eq_none.1 hf c hc
        rw [decide_eq_true_eq] at this
        exact this
      · intro _
        exact ⟨_, rfl⟩
  · intro i hi hp hmin
    unfold normalize_datetime
    have hfind : cols.find? (fun c => decide (c.1 ∈ datetime_candidates)) =
        some (cols.get ⟨i, hi⟩) := by
      apply find?_eq_get_first _ _ i hi (by rw [decide_eq_true_eq]; exact hp)
      intro j hj
      rw [decide_eq_false_iff_not]
      exact hmin j hj
    rw [hfind]

/-- Closed witness for the amended C5: on a table whose first column is not
a candidate and whose second column is "occurred", that second column is
chosen and its (empty) value list is parsed. -/
theorem C5_amended_first_table_column_witness :
    normalize_datetime (fun _ => none) [("x", []), ("occurred", [])] =
      .ok ("occurred", []) :=
  (C5_amended_first_table_column (fun _ => none) [("x", []), ("occurred", [])]).2
    1 (by decide) (by decide) (by decide)

/-! ## Helper lemmas: location-key last-match characterization -/

/-- The if/elif body of the detecter loop, applied to an already-stripped
segment (`updateDet acc p` is definitionally `updateStripped acc (stripChars p)`). -/
def updateStripped (acc : LocTriple) (part : List Char) : LocTriple :=
  if containsSub cabinetTok part then { acc with cabinet := part }
  else if containsSub subrackTok part then { acc with subrack := part }
  else if containsSub slotTok part then { acc with slot := part }
  else acc

lemma foldl_updateDet_map (ps : List (List Char)) (acc : LocTriple) :
    ps.foldl updateDet acc = (ps.map stripChars).foldl updateStripped acc := by
  rw [List.foldl_map]
  rfl

lemma foldl_if_eq_getLastD {β : Type} (Q : β → Bool) (ps : List β) :
    ∀ acc : β, ps.foldl (fun x p => if Q p then p else x) acc = (ps.filter Q).getLastD acc := by
  induction ps with
  | nil => intro acc; rfl
  | cons p t ih =>
    intro acc
    by_cases h : Q p
    · rw [List.foldl_cons, if_pos h, List.filter_cons_of_pos h, List.getLastD_cons, ih]
    · rw [List.foldl_cons, if_neg h, List.filter_cons_of_neg h, ih]

lemma updateStripped_cabinet (acc : LocTriple) (p : List Char) :
    (updateStripped acc p).cabinet =
      if containsSub cabinetTok p then p else acc.cabinet := by
  unfold updateStripped
  by_cases h1 : containsSub cabinetTok p <;> by_cases h2 : containsSub subrackTok p <;>
    by_cases h3 : containsSub slotTok p <;> simp [h1, h2, h3]

lemma updateStripped_subrack (acc : LocTriple) (p : List Char) :
    (updateStripped acc p).subrack =
      if !containsSub cabinetTok p && containsSub subrackTok p then p else acc.subrack := by
  unfold updateStripped
  by_cases h1 : containsSub cabinetTok p <;> by_cases h2 : containsSub subrackTok p <;>
    by_cases h3 : containsSub slotTok p <;> simp [h1, h2, h3]

lemma updateStripped_slot (acc : LocTriple) (p : List Char) :
    (updateStripped acc p).slot =
      if !containsSub cabinetTok p && !containsSub subrackTok p && containsSub slotTok p
      then p else acc.slot := by
  unfold updateStripped
  by_cases h1 : containsSub cabinetTok p <;> by_cases h2 : containsSub subrackTok p <;>
    by_cases h3 : containsSub slotTok p <;> simp [h1, h2, h3]

lemma foldl_updateStripped_cabinet (ps : List (List Char)) :
    ∀ acc : LocTriple, (ps.foldl updateStripped acc).cabinet =
      ps.foldl (fun x p => if containsSub cabinetTok p then p else x) acc.cabinet := by
  induction ps with
  | nil => intro _; rfl
  | cons p t ih =>
    intro acc
    rw [List.foldl_cons, List.foldl_cons, ih, updateStripped_cabinet]

lemma foldl_updateStripped_subrack (ps : List (List Char)) :
    ∀ acc : LocTriple, (ps.foldl updateStripped acc).subrack =
      ps.foldl (fun x p =>
        if !containsSub cabinetTok p && containsSub subrackTok p then p else x) acc.subrack := by
  induction ps with
  | nil => intro _; rfl
  | cons p t ih =>
    intro acc
    rw [List.foldl_cons, List.foldl_cons, ih, updateStripped_subrack]

lemma foldl_updateStripped_slot (ps : List (List Char)) :
    ∀ acc : LocTriple, (ps.foldl updateStripped acc).slot =
      ps.foldl (fun x p =>
        if !containsSub cabinetTok p && !containsSub subrackTok p && containsSub slotTok p
        then p else x) acc.slot := by
  induction ps with
  | nil => intro _; rfl
  | cons p t ih =>
    intro acc
    rw [List.foldl_cons, List.foldl_cons, ih, updateStripped_slot]

/-! ## Claim theorems: C6 -/

/-- Counterexample to C6 as stated: the loop keeps the LAST matching
segment for each component, not the first.  On "cabinet 1, cabinet 2" the
cabinet component from the code is "cabinet 2" while the first-match
reading of the claim yields "cabinet 1". -/
theorem C6_counterexample :
    build_location_key "cabinet 1, cabinet 2".data = "cabinet 2\n?\n?".data
    ∧ build_location_key_claimed "cabinet 1, cabinet 2".data = "cabinet 1\n?\n?".data
    ∧ build_location_key "cabinet 1, cabinet 2".data ≠
      build_location_key_claimed "cabinet 1, cabinet 2".data :=
  ⟨by decide, by decide, by decide⟩

/-- C6 amended: the LocationKey is built by scanning the lowercased
comma-separated segments of the lowercased descriptor; each component keeps the LAST
trimmed segment containing its substring, where a segment is considered
for subrack only if it does not contain "cabinet", and for slot only if it
contains neither "cabinet" nor "subrack" (the if/elif chain); components
with no matching segment stay at the "?" sentinel. -/
theorem C6_amended_last_match (text : List Char) :
    build_location_key text =
      (((splitComma (toLowerL text)).map stripChars).filter
          (fun p => containsSub cabinetTok p)).getLastD unknownTok
      ++ '\n' :: ((((splitComma (toLowerL text)).map stripChars).filter
          (fun p => !containsSub cabinetTok p && containsSub subrackTok p)).getLastD unknownTok
      ++ '\n' :: (((splitComma (toLowerL text)).map stripChars).filter
          (fun p => !containsSub cabinetTok p && !containsSub subrackTok p &&
            containsSub slotTok p)).getLastD unknownTok) := by
  simp only [build_location_key, locTriple_det]
  rw [foldl_updateDet_map, foldl_updateStripped_cabinet, foldl_updateStripped_subrack,
    foldl_updateStripped_slot, foldl_if_eq_getLastD, foldl_if_eq_getLastD,
    foldl_if_eq_getLastD]
  rfl

/-! ## Helper lemmas: stripping does not change substring matching -/

lemma matchesAt_append_ws (needle : List Char) (hn : ∀ a ∈ needle, isWS a = false) :
    ∀ (l : List Char) (c : Char), isWS c = true →
      matchesAt needle (l ++ [c]) = matchesAt needle l := by
  induction needle with
  | nil => intro l c _; rfl
  | cons a as ih =>
    intro l c hc
    have ha : isWS a = false := hn a (List.mem_cons_self a as)
    have hac : ¬a = c := by
      intro he
      rw [he, hc] at ha
      exact Bool.noConfusion ha
    cases l with
    | nil => simp [matchesAt, hac]
    | cons b bs =>
      have h := ih (fun x hx => hn x (List.mem_cons_of_mem a hx)) bs c hc
      simp only [List.cons_append, matchesAt, List.append_eq, h]

lemma containsSub_append_ws (needle : List Char) (hne : needle ≠ [])
    (hn : ∀ a ∈ needle, isWS a = false) :
    ∀ (m : List Char) (c : Char), isWS c = true →
      containsSub needle (m ++ [c]) = containsSub needle m := by
  intro m
  induction m with
  | nil =>
    intro c hc
    have h1 : matchesAt needle [c] = false := by
      have h := matchesAt_append_ws needle hn [] c hc
      cases needle with
      | nil => exact absurd rfl hne
      | cons a as => simpa [matchesAt] using h
    show (matchesAt needle [c] || containsSub needle []) = containsSub needle []
    rw [h1, Bool.false_or]
  | cons b bs ih =>
    intro c hc
    show (matchesAt needle (b :: (bs ++ [c])) || containsSub needle (bs ++ [c])) =
      (matchesAt needle (b :: bs) || containsSub needle bs)
    have h1 : matchesAt needle (b :: (bs ++ [c])) = matchesAt needle (b :: bs) := by
      have h := matchesAt_append_ws needle hn (b :: bs) c hc
      simpa using h
    rw [h1, ih c hc]

lemma containsSub_append_wsList (needle : List Char) (hne : needle ≠ [])
    (hn : ∀ a ∈ needle, isWS a = false) (m w : List Char) :
    (∀ c ∈ w, isWS c = true) → containsSub needle (m ++ w) = containsSub needle m := by
  induction w using List.reverseRecOn with
  | nil => intro _; simp
  | append_singleton w' c ihw =>
    intro hw
    rw [← List.append_assoc,
      containsSub_append_ws needle hne hn (m ++ w') c (hw c (by simp)),
      ihw (fun x hx => hw x (by simp [hx]))]

lemma containsSub_cons_ws (needle : List Char) (hne : needle ≠ [])
    (hn : ∀ a ∈ needle, isWS a = false) (c : Char) (t : List Char) (hc : isWS c = true) :
    containsSub needle (c :: t) = containsSub needle t := by
  cases needle with
  | nil => exact absurd rfl hne
  | cons a as =>
    have ha : isWS a = false := hn a (List.mem_cons_self a as)
    have hac : ¬a = c := by
      intro he
      rw [he, hc] at ha
      exact Bool.noConfusion ha
    show (matchesAt (a :: as) (c :: t) || containsSub (a :: as) t) = containsSub (a :: as) t
    simp [matchesAt, hac]

lemma containsSub_dropWhile (needle : List Char) (hne : needle ≠ [])
    (hn : ∀ a ∈ needle, isWS a = false) (l : List Char) :
    containsSub needle (l.dropWhile isWS) = containsSub needle l := by
  induction l with
  | nil => rfl
  | cons c t ih =>
    rw [List.dropWhile_cons]
    by_cases hc : isWS c = true
    · rw [if_pos hc, ih, containsSub_cons_ws needle hne hn c t hc]
    · rw [if_neg hc]

lemma containsSub_stripChars (needle : List Char) (hne : needle ≠ [])
    (hn : ∀ a ∈ needle, isWS a = false) (l : List Char) :
    containsSub needle (stripChars l) = containsSub needle l := by
  have h1 : containsSub needle (l.dropWhile isWS) = containsSub needle l :=
    containsSub_dropWhile needle hne hn l
  set m := l.dropWhile isWS with hm
  have hdecomp : m = (m.reverse.dropWhile isWS).reverse ++ (m.reverse.takeWhile isWS).reverse := by
    conv_lhs => rw [← List.reverse_reverse m, ← List.takeWhile_append_dropWhile isWS m.reverse]
    rw [List.reverse_append]
  have hw : ∀ c ∈ (m.reverse.takeWhile isWS).reverse, isWS c = true := by
    intro c hcm
    exact List.mem_takeWhile_imp (List.mem_reverse.1 hcm)
  calc containsSub needle (stripChars l)
      = containsSub needle ((m.reverse.dropWhile isWS).reverse) := rfl
    _ = containsSub needle
        ((m.reverse.dropWhile isWS).reverse ++ (m.reverse.takeWhile isWS).reverse) :=
        (containsSub_append_wsList needle hne hn _ _ hw).symm
    _ = containsSub needle m := by rw [← hdecomp]
    _ = containsSub needle l := h1

lemma cabinetTok_ne_nil : cabinetTok ≠ [] := by decide

lemma cabinetTok_no_ws : ∀ a ∈ cabinetTok, isWS a = false := by decide

lemma subrackTok_ne_nil : subrackTok ≠ [] := by decide

lemma subrackTok_no_ws : ∀ a ∈ subrackTok, isWS a = false := by decide

lemma slotTok_ne_nil : slotTok ≠ [] := by decide

lemma slotTok_no_ws : ∀ a ∈ slotTok, isWS a = false := by decide

lemma updateDet_eq_updateTrn : updateDet = updateTrn := by
  funext acc p
  simp only [updateDet, updateTrn]
  rw [containsSub_stripChars cabinetTok cabinetTok_ne_nil cabinetTok_no_ws p,
    containsSub_stripChars subrackTok subrackTok_ne_nil subrackTok_no_ws p,
    containsSub_stripChars slotTok slotTok_ne_nil slotTok_no_ws p]

/-! ## Claim theorems: C9 -/

/-- C9: for every raw location descriptor the training-time and
inference-time key builders extract the same (cabinet, subrack, slot)
triple, but join it with different separators (newline at inference, pipe
at training), so the two key strings are never equal. -/
theorem C9_train_vs_inference_key (text : List Char) :
    locTriple_det text = locTriple_trn text
    ∧ build_location_key text ≠ build_location_key_trn text := by
  have htr : locTriple_det text = locTriple_trn text := by
    unfold locTriple_det locTriple_trn
    rw [updateDet_eq_updateTrn]
  refine ⟨htr, ?_⟩
  intro he
  simp only [build_location_key, build_location_key_trn] at he
  rw [htr] at he
  have h2 := List.append_cancel_left he
  injection h2 with h3 _
  exact absurd h3 (by decide)

/-! ## Helper lemmas: prediction pipeline -/

/-- The probability the inference path computes for one label of one pair:
the last `HISTORY_WINDOWS` windows of the pair flattened, encoded over
the frozen vocabulary, fed to the classifier head of that label. -/
def labelProb (proba : List Nat → String → ℚ) (vocab : List String) (rows : List Row)
    (k : String × String) (fault : String) : ℚ :=
  proba (encode vocab (recentOf (recordsFor rows k))) fault

lemma pairKeys_nodup (rows : List Row) : (pairKeys rows).Nodup :=
  List.nodup_dedup _

lemma alarmsIn_ne_nil {rows : List Row} {k : String × String} {w : Int}
    (h : w ∈ winsFor rows k) : alarmsIn rows k w ≠ [] := by
  unfold winsFor at h
  rw [List.mem_dedup, List.mem_map] at h
  obtain ⟨r, hr, hw⟩ := h
  rw [List.mem_filter] at hr
  obtain ⟨hrr, hk⟩ := hr
  have hmem : r ∈ rows.filter (fun r => decide (rowKey r = k) && decide (r.time_window = w)) := by
    rw [List.mem_filter]
    refine ⟨hrr, ?_⟩
    simp only [Bool.and_eq_true, decide_eq_true_eq] at hk ⊢
    exact ⟨hk, hw⟩
  unfold alarmsIn
  exact List.ne_nil_of_mem (List.mem_map_of_mem Row.alarm_clean hmem)

lemma mem_recordsFor {rows : List Row} {k : String × String} {e : Int × List String}
    (h : e ∈ recordsFor rows k) :
    e.1 ∈ winsFor rows k ∧ e.2 = alarmsIn rows k e.1 := by
  unfold recordsFor at h
  rw [List.mem_map] at h
  obtain ⟨w, hw, he⟩ := h
  subst he
  exact ⟨hw, rfl⟩

lemma recentOf_ne_nil_of_populated (records : List (Int × List String))
    (hlen3 : HISTORY_WINDOWS ≤ records.length)
    (hpop : ∀ e ∈ records, e.2 ≠ ([] : List String)) :
    recentOf records ≠ [] := by
  show (((records.mergeSort recLe).drop
    ((records.mergeSort recLe).length - HISTORY_WINDOWS)).map Prod.snd).flatten ≠ []
  intro hnil
  have hlen : (records.mergeSort recLe).length = records.length := List.length_mergeSort _
  have hdlen : ((records.mergeSort recLe).drop
      ((records.mergeSort recLe).length - HISTORY_WINDOWS)).length = HISTORY_WINDOWS := by
    rw [List.length_drop, Nat.sub_sub_self (by rw [hlen]; exact hlen3)]
  cases hd : (records.mergeSort recLe).drop
      ((records.mergeSort recLe).length - HISTORY_WINDOWS) with
  | nil =>
    rw [hd] at hdlen
    exact absurd hdlen (by decide)
  | cons e t =>
    have he : e ∈ (records.mergeSort recLe).drop
        ((records.mergeSort recLe).length - HISTORY_WINDOWS) := by
      rw [hd]
      exact List.mem_cons_self e t
    have hes : e ∈ records.mergeSort recLe := List.mem_of_mem_drop he
    have herec : e ∈ records := (List.mergeSort_perm records recLe).mem_iff.1 hes
    rw [List.flatten_eq_nil_iff] at hnil
    exact hpop e herec (hnil e.2 (List.mem_map_of_mem Prod.snd he))

lemma recentOf_recordsFor_ne_nil {rows : List Row} {k : String × String}
    (h : HISTORY_WINDOWS ≤ (recordsFor rows k).length) :
    recentOf (recordsFor rows k) ≠ [] := by
  apply recentOf_ne_nil_of_populated _ h
  intro e he
  obtain ⟨hw, ha⟩ := mem_recordsFor he
  rw [ha]
  exact alarmsIn_ne_nil hw

lemma predictForPair_eq (proba : List Nat → String → ℚ) (classes vocab : List String)
    (fd : List (String × FaultMeta)) (k : String × String)
    (records : List (Int × List String)) :
    predictForPair proba classes vocab fd k records =
      if (records.mergeSort recLe).length < HISTORY_WINDOWS then []
      else if (recentOf records).isEmpty then []
      else emitForPair proba classes vocab fd k (recentOf records) := rfl

lemma mem_emitForPair {proba : List Nat → String → ℚ} {classes vocab : List String}
    {fd : List (String × FaultMeta)} {k : String × String} {recent : List String}
    {r : PredictionResult} :
    r ∈ emitForPair proba classes vocab fd k recent ↔
      ∃ f ∈ classes, f ≠ "no_fault" ∧ MIN_RISK ≤ proba (encode vocab recent) f ∧
        r = resultFor proba vocab fd k recent f := by
  unfold emitForPair
  rw [List.mem_filterMap]
  constructor
  · rintro ⟨f, hf, hsome⟩
    by_cases h1 : f = "no_fault"
    · rw [if_pos h1] at hsome
      exact absurd hsome Option.noConfusion
    · rw [if_neg h1] at hsome
      by_cases h2 : proba (encode vocab recent) f < MIN_RISK
      · rw [if_pos h2] at hsome
        exact absurd hsome Option.noConfusion
      · rw [if_neg h2] at hsome
        exact ⟨f, hf, h1, not_lt.1 h2, (Option.some_injective _ hsome).symm⟩
  · rintro ⟨f, hf, h1, h2, hr⟩
    refine ⟨f, hf, ?_⟩
    rw [if_neg h1, if_neg (not_lt.2 h2), hr]

lemma mem_predict {proba : List Nat → String → ℚ} {classes vocab : List String}
    {fd : List (String × FaultMeta)} {rows : List Row} {r : PredictionResult} :
    r ∈ predict_future_faults proba classes vocab fd rows ↔
      ∃ k ∈ pairKeys rows, r ∈ predictForPair proba classes vocab fd k (recordsFor rows k) := by
  unfold predict_future_faults
  rw [List.mem_flatten]
  constructor
  · rintro ⟨l, hl, hr⟩
    rw [List.mem_map] at hl
    obtain ⟨k, hk, hlk⟩ := hl
    exact ⟨k, hk, hlk ▸ hr⟩
  · rintro ⟨k, hk, hr⟩
    exact ⟨_, List.mem_map_of_mem _ hk, hr⟩

lemma mem_predictForPair_props {proba : List Nat → String → ℚ} {classes vocab : List String}
    {fd : List (String × FaultMeta)} {k : String × String}
    {records : List (Int × List String)} {r : PredictionResult}
    (h : r ∈ predictForPair proba classes vocab fd k records) :
    r.site = k.1 ∧ r.location = k.2 ∧ r.fault ∈ classes ∧ r.fault ≠ "no_fault" ∧
      MIN_RISK ≤ proba (encode vocab (recentOf records)) r.fault ∧
      r.riskLevel = riskLevelOf (proba (encode vocab (recentOf records)) r.fault) := by
  rw [predictForPair_eq] at h
  by_cases h1 : (records.mergeSort recLe).length < HISTORY_WINDOWS
  · rw [if_pos h1] at h
    exact absurd h (List.not_mem_nil r)
  · rw [if_neg h1] at h
    by_cases h2 : (recentOf records).isEmpty
    · rw [if_pos h2] at h
      exact absurd h (List.not_mem_nil r)
    · rw [if_neg h2] at h
      obtain ⟨f, hf, hnf, hp, hr⟩ := mem_emitForPair.1 h
      subst hr
      exact ⟨rfl, rfl, hf, hnf, hp, rfl⟩

lemma riskLevelOf_eq_high {p : ℚ} : riskLevelOf p = "HIGH" ↔ 1 / 2 ≤ p := by
  unfold riskLevelOf
  by_cases h1 : (1 : ℚ) / 2 ≤ p
  · rw [if_pos h1]
    exact ⟨fun _ => h1, fun _ => rfl⟩
  · rw [if_neg h1]
    by_cases h2 : (1 : ℚ) / 4 ≤ p
    · rw [if_pos h2]
      exact ⟨fun h => absurd h (by decide), fun h => absurd h h1⟩
    · rw [if_neg h2]
      exact ⟨fun h => absurd h (by decide), fun h => absurd h h1⟩

lemma riskLevelOf_eq_medium {p : ℚ} : riskLevelOf p = "MEDIUM" ↔ 1 / 4 ≤ p ∧ p < 1 / 2 := by
  unfold riskLevelOf
  by_cases h1 : (1 : ℚ) / 2 ≤ p
  · rw [if_pos h1]
    exact ⟨fun h => absurd h (by decide), fun h => absurd h1 (not_le.2 h.2)⟩
  · rw [if_neg h1]
    by_cases h2 : (1 : ℚ) / 4 ≤ p
    · rw [if_pos h2]
      exact ⟨fun _ => ⟨h2, not_le.1 h1⟩, fun _ => rfl⟩
    · rw [if_neg h2]
      exact ⟨fun h => absurd h (by decide), fun h => absurd h.1 h2⟩

lemma riskLevelOf_eq_low {p : ℚ} : riskLevelOf p = "LOW" ↔ p < 1 / 4 := by
  unfold riskLevelOf
  by_cases h1 : (1 : ℚ) / 2 ≤ p
  · rw [if_pos h1]
    refine ⟨fun h => absurd h (by decide), fun h => ?_⟩
    exfalso
    have h3 : (1 : ℚ) / 2 < 1 / 4 := lt_of_le_of_lt h1 h
    norm_num at h3
  · rw [if_neg h1]
    by_cases h2 : (1 : ℚ) / 4 ≤ p
    · rw [if_pos h2]
      exact ⟨fun h => absurd h (by decide), fun h => absurd h2 (not_le.2 h)⟩
    · rw [if_neg h2]
      exact ⟨fun _ => not_le.1 h2, fun _ => rfl⟩

/-! ## Claim theorems: C1, C2, C10 -/

/-- C1: for a (device, location) pair with at least HISTORY_WINDOWS
populated windows (windows produced by the grouping always hold at least
one alarm) and any trained label other than no_fault: a PredictionResult
for that (device, location, label) is emitted exactly when the predicted
probability of the label is at least MIN_RISK; the tier of an emitted record is
HIGH exactly when the probability is at least 1/2, MEDIUM exactly when it
is in [1/4, 1/2), LOW exactly when it is in [MIN_RISK, 1/4); and no record
is ever emitted for no_fault. -/
theorem C1_risk_emission (proba : List Nat → String → ℚ) (classes vocab : List String)
    (fd : List (String × FaultMeta)) (rows : List Row) (ne loc fault : String)
    (hk : (ne, loc) ∈ pairKeys rows)
    (hlen : HISTORY_WINDOWS ≤ (recordsFor rows (ne, loc)).length)
    (hf : fault ∈ classes) (hnf : fault ≠ "no_fault") :
    ((∃ r ∈ predict_future_faults proba classes vocab fd rows,
        r.site = ne ∧ r.location = loc ∧ r.fault = fault) ↔
      MIN_RISK ≤ labelProb proba vocab rows (ne, loc) fault)
    ∧ (∀ r ∈ predict_future_faults proba classes vocab fd rows,
        r.site = ne → r.location = loc → r.fault = fault →
        ((r.riskLevel = "HIGH" ↔ 1 / 2 ≤ labelProb proba vocab rows (ne, loc) fault)
         ∧ (r.riskLevel = "MEDIUM" ↔
            1 / 4 ≤ labelProb proba vocab rows (ne, loc) fault ∧
              labelProb proba vocab rows (ne, loc) fault < 1 / 2)
         ∧ (r.riskLevel = "LOW" ↔
            MIN_RISK ≤ labelProb proba vocab rows (ne, loc) fault ∧
              labelProb proba vocab rows (ne, loc) fault < 1 / 4)))
    ∧ (∀ r ∈ predict_future_faults proba classes vocab fd rows, r.fault ≠ "no_fault") := by
  have key : ∀ r ∈ predict_future_faults proba classes vocab fd rows,
      r.site = ne → r.location = loc →
      (MIN_RISK ≤ labelProb proba vocab rows (ne, loc) r.fault ∧
       r.riskLevel = riskLevelOf (labelProb proba vocab rows (ne, loc) r.fault)) := by
    intro r hr hs hl
    obtain ⟨k', _, hrp⟩ := mem_predict.1 hr
    obtain ⟨hsite, hloc, _, _, hp, hrl⟩ := mem_predictForPair_props hrp
    have hkk : k' = (ne, loc) := by
      rw [Prod.ext_iff]
      exact ⟨by rw [← hsite, hs], by rw [← hloc, hl]⟩
    rw [hkk] at hp hrl
    exact ⟨hp, hrl⟩
  refine ⟨⟨?_, ?_⟩, ?_, ?_⟩
  · rintro ⟨r, hr, hs, hl, hfq⟩
    have hk2 := key r hr hs hl
    rw [← hfq]
    exact hk2.1
  · intro hp
    refine ⟨resultFor proba vocab fd (ne, loc) (recentOf (recordsFor rows (ne, loc))) fault,
      ?_, rfl, rfl, rfl⟩
    apply mem_predict.2
    refine ⟨(ne, loc), hk, ?_⟩
    rw [predictForPair_eq,
      if_neg (by rw [List.length_mergeSort]; exact not_lt.2 hlen),
      if_neg (by
        intro hemp
        exact recentOf_recordsFor_ne_nil hlen (List.isEmpty_iff.1 hemp))]
    exact mem_emitForPair.2 ⟨fault, hf, hnf, hp, rfl⟩
  · intro r hr hs hl hfq
    have hk2 := key r hr hs hl
    rw [hfq] at hk2
    refine ⟨?_, ?_, ?_⟩
    · rw [hk2.2]
      exact riskLevelOf_eq_high
    · rw [hk2.2]
      exact riskLevelOf_eq_medium
    · rw [hk2.2]
      exact ⟨fun h => ⟨hk2.1, riskLevelOf_eq_low.1 h⟩, fun h => riskLevelOf_eq_low.2 h.2⟩
  · intro r hr
    obtain ⟨k', _, hrp⟩ := mem_predict.1 hr
    exact (mem_predictForPair_props hrp).2.2.2.1

/-- Concrete classifier head used by the pipeline witnesses. -/
def probaA : List Nat → String → ℚ := fun _ _ => 3 / 10

/-- Concrete frozen vocabulary used by the pipeline witnesses. -/
def vocabA : List String := ["a", "b", "c"]

/-- Three populated windows for one (device, location) pair. -/
def rowsA : List Row :=
  [⟨"NE1", "L1", 0, "a"⟩, ⟨"NE1", "L1", 600, "b"⟩, ⟨"NE1", "L1", 1200, "c"⟩]

/-- Only two populated windows for the pair. -/
def rowsB : List Row :=
  [⟨"NE1", "L1", 0, "a"⟩, ⟨"NE1", "L1", 600, "b"⟩]

/-- Closed witness for C1 at a concrete table, vocabulary, label set and
classifier head. -/
theorem C1_risk_emission_witness :
    (∃ r ∈ predict_future_faults probaA ["no_fault", "qos"] vocabA FAULT_DATA rowsA,
      r.site = "NE1" ∧ r.location = "L1" ∧ r.fault = "qos") ↔
    MIN_RISK ≤ labelProb probaA vocabA rowsA ("NE1", "L1") "qos" :=
  (C1_risk_emission probaA ["no_fault", "qos"] vocabA FAULT_DATA rowsA "NE1" "L1" "qos"
    (by decide) (by decide) (by decide) (by decide)).1

/-- C2: a (device, location) pair with fewer than HISTORY_WINDOWS populated
windows yields no PredictionResult on the inference path and no
TrainingExample on the training path; the pair is simply skipped. -/
theorem C2_insufficient_history (proba : List Nat → String → ℚ) (classes vocab : List String)
    (fd : List (String × FaultMeta)) (rows : List Row) (k : String × String)
    (hlen : (recordsFor rows k).length < HISTORY_WINDOWS) :
    (∀ r ∈ predict_future_faults proba classes vocab fd rows,
      ¬(r.site = k.1 ∧ r.location = k.2))
    ∧ trainExamplesFor (trainRecordsFor rows k) = [] := by
  constructor
  · rintro r hr ⟨hs, hl⟩
    obtain ⟨k', _, hrp⟩ := mem_predict.1 hr
    obtain ⟨hsite, hloc, _⟩ := mem_predictForPair_props hrp
    have hkk : k' = k := by
      rw [Prod.ext_iff]
      exact ⟨by rw [← hsite, hs], by rw [← hloc, hl]⟩
    rw [hkk] at hrp
    rw [predictForPair_eq, if_pos (by rw [List.length_mergeSort]; exact hlen)] at hrp
    exact List.not_mem_nil r hrp
  · have hlen2 : (trainRecordsFor rows k).length = (recordsFor rows k).length := by
      simp [trainRecordsFor, recordsFor]
    have h0 : ((trainRecordsFor rows k).mergeSort trainRecLe).length - HISTORY_WINDOWS = 0 :=
      Nat.sub_eq_zero_of_le
        (le_of_lt (by rw [List.length_mergeSort, hlen2]; exact hlen))
    simp only [trainExamplesFor]
    rw [h0]
    rfl

/-- Closed witness for C2: a pair with only two populated windows produces
neither predictions nor training examples. -/
theorem C2_insufficient_history_witness :
    (∀ r ∈ predict_future_faults probaA ["no_fault", "qos"] vocabA FAULT_DATA rowsB,
      ¬(r.site = ("NE1", "L1").1 ∧ r.location = ("NE1", "L1").2))
    ∧ trainExamplesFor (trainRecordsFor rowsB ("NE1", "L1")) = [] :=
  C2_insufficient_history probaA ["no_fault", "qos"] vocabA FAULT_DATA rowsB ("NE1", "L1")
    (by decide)

lemma emit_opt_fault {proba : List Nat → String → ℚ} {vocab : List String}
    {fd : List (String × FaultMeta)} {k : String × String} {recent : List String}
    {a : String} {x : PredictionResult}
    (h : (if a = "no_fault" then none
          else if proba (encode vocab recent) a < MIN_RISK then none
          else some (resultFor proba vocab fd k recent a)) = some x) :
    x.fault = a := by
  by_cases h1 : a = "no_fault"
  · rw [if_pos h1] at h
    exact absurd h Option.noConfusion
  · rw [if_neg h1] at h
    by_cases h2 : proba (encode vocab recent) a < MIN_RISK
    · rw [if_pos h2] at h
      exact absurd h Option.noConfusion
    · rw [if_neg h2] at h
      rw [← Option.some_injective _ h]
      rfl

/-- C10: over any input table, the result list never contains two records
with the same (device, location key, fault label) triple, and every
label of every record is drawn from the trained label set minus no_fault. -/
theorem C10_at_most_one_per_triple (proba : List Nat → String → ℚ)
    (classes vocab : List String) (fd : List (String × FaultMeta)) (rows : List Row)
    (hnd : classes.Nodup) :
    List.Pairwise (fun r s : PredictionResult =>
      ¬(r.site = s.site ∧ r.location = s.location ∧ r.fault = s.fault))
      (predict_future_faults proba classes vocab fd rows)
    ∧ ∀ r ∈ predict_future_faults proba classes vocab fd rows,
      r.fault ∈ classes ∧ r.fault ≠ "no_fault" := by
  constructor
  · unfold predict_future_faults
    rw [List.pairwise_flatten]
    constructor
    · intro l hl
      rw [List.mem_map] at hl
      obtain ⟨k, hk, hlk⟩ := hl
      subst hlk
      rw [predictForPair_eq]
      by_cases h1 : ((recordsFor rows k).mergeSort recLe).length < HISTORY_WINDOWS
      · rw [if_pos h1]
        exact List.Pairwise.nil
      · rw [if_neg h1]
        by_cases h2 : (recentOf (recordsFor rows k)).isEmpty
        · rw [if_pos h2]
          exact List.Pairwise.nil
        · rw [if_neg h2]
          unfold emitForPair
          rw [List.pairwise_filterMap]
          refine List.Pairwise.imp ?_ hnd
          intro a b hab x hx y hy
          rintro ⟨_, _, hfeq⟩
          exact hab (by rw [← emit_opt_fault hx, ← emit_opt_fault hy, hfeq])
    · rw [List.pairwise_map]
      refine List.Pairwise.imp ?_ (pairKeys_nodup rows)
      intro k k' hkk x hx y hy
      rintro ⟨hs, hl, _⟩
      obtain ⟨hxs, hxl, _⟩ := mem_predictForPair_props hx
      obtain ⟨hys, hyl, _⟩ := mem_predictForPair_props hy
      apply hkk
      rw [Prod.ext_iff]
      exact ⟨by rw [← hxs, hs, hys], by rw [← hxl, hl, hyl]⟩
  · intro r hr
    obtain ⟨k', _, hrp⟩ := mem_predict.1 hr
    have hp := mem_predictForPair_props hrp
    exact ⟨hp.2.2.1, hp.2.2.2.1⟩

/-- Closed witness for C10 at a concrete table and duplicate-free trained
label set. -/
theorem C10_at_most_one_per_triple_witness :
    List.Pairwise (fun r s : PredictionResult =>
      ¬(r.site = s.site ∧ r.location = s.location ∧ r.fault = s.fault))
      (predict_future_faults probaA ["no_fault", "qos"] vocabA FAULT_DATA rowsA)
    ∧ ∀ r ∈ predict_future_faults probaA ["no_fault", "qos"] vocabA FAULT_DATA rowsA,
      r.fault ∈ ["no_fault", "qos"] ∧ r.fault ≠ "no_fault" :=
  C10_at_most_one_per_triple probaA ["no_fault", "qos"] vocabA FAULT_DATA rowsA (by decide)

/-- Closed witness for the amended C6 at a concrete descriptor with two
cabinet segments: the characterization picks the last one. -/
theorem C6_amended_last_match_witness :
    build_location_key "x 1, cabinet 2, cabinet 3".data = "cabinet 3\n?\n?".data := by
  rw [C6_amended_last_match]
  decide

/-- Closed witness for C9 at a concrete descriptor. -/
theorem C9_train_vs_inference_key_witness :
    locTriple_det "Cabinet 1, Subrack 2, Slot 3".data =
      locTriple_trn "Cabinet 1, Subrack 2, Slot 3".data
    ∧ build_location_key "Cabinet 1, Subrack 2, Slot 3".data ≠
      build_location_key_trn "Cabinet 1, Subrack 2, Slot 3".data :=
  C9_train_vs_inference_key "Cabinet 1, Subrack 2, Slot 3".data
